import Mathlib

/-!
Verification of the libdns DirectAdmin provider.

The Go sources are shallowly embedded: strings are Lean `String`s (lists of
characters), Go `int` is `Int` with the explicit int64 range where Go checks
it, Go `uint16(x)` conversions are `% 2^16`, and each fallible function
returns `Except`/`Option`.  HTTP effects are modelled by passing the outcome
of every network step as an explicit argument.
-/

namespace DirectAdmin

/-! ## Go string primitives -/

/-- strings.HasSuffix. -/
def strHasSuffix (s suf : String) : Bool :=
  decide (s.data.drop (s.data.length - suf.data.length) = suf.data)

/-- strings.TrimSuffix: drops one occurrence of `suf` from the end, if present. -/
def strTrimSuffix (s suf : String) : String :=
  if strHasSuffix s suf = true then
    String.mk (s.data.take (s.data.length - suf.data.length))
  else s

/-- strings.HasPrefix (leading-match test). -/
def strStartsWith (s p : String) : Bool :=
  decide (s.data.take p.data.length = p.data)

/-- strings.TrimPrefix: drops one leading occurrence of `p`, if present. -/
def strDropStart (s p : String) : String :=
  if strStartsWith s p = true then String.mk (s.data.drop p.data.length) else s

/-- Helper for `goSplit`: split a character list at every occurrence of `c`. -/
def splitAux (c : Char) : List Char → List (List Char)
  | [] => [[]]
  | x :: xs =>
    match splitAux c xs with
    | [] => [[]]
    | h :: t => if x = c then [] :: h :: t else (x :: h) :: t

/-- strings.Split with a one-character separator (the only form the repository uses). -/
def goSplit (s : String) (c : Char) : List String :=
  (splitAux c s.data).map String.mk

/-- strings.Join. -/
def goJoin (sep : String) : List String → String
  | [] => ""
  | [x] => x
  | x :: xs => x ++ sep ++ goJoin sep xs

/-- Digit run to a natural number. -/
def digitsToNat (l : List Char) : Nat :=
  l.foldl (fun acc c => acc * 10 + (c.toNat - 48)) 0

/-- Core of strconv.Atoi: an optional sign, then decimal digits, range-checked
against int64 (Go returns an error on overflow). -/
def goAtoiCore (sign : Int) (digits : List Char) : Option Int :=
  if digits = [] then none
  else if digits.all (fun c => 48 ≤ c.toNat && c.toNat ≤ 57) then
    if -9223372036854775808 ≤ sign * (digitsToNat digits : Int) ∧
        sign * (digitsToNat digits : Int) ≤ 9223372036854775807 then
      some (sign * (digitsToNat digits : Int))
    else none
  else none

/-- strconv.Atoi. -/
def goAtoi (s : String) : Option Int :=
  match s.data with
  | '+' :: rest => goAtoiCore 1 rest
  | '-' :: rest => goAtoiCore (-1) rest
  | l => goAtoiCore 1 l

/-- Go `uint16(x)` conversion of an `int`: the low 16 bits. -/
def uint16ofInt (x : Int) : Nat :=
  (x.emod 65536).toNat

/-- Go int64 two's-complement wraparound, used where a `time.Duration`
multiplication may overflow. -/
def wrap64 (x : Int) : Int :=
  (x + 9223372036854775808).emod 18446744073709551616 - 9223372036854775808

/-- First line of a string: `strings.Split(s, "\n")[0]`. -/
def firstLine (s : String) : String :=
  (goSplit s '\n').getD 0 ""

/-- Projection of `Except` onto its success value. -/
def exceptOk {ε α : Type} : Except ε α → Option α
  | Except.ok a => some a
  | Except.error _ => none

/-- Projection of `Except` onto its error value. -/
def exceptErr {ε α : Type} : Except ε α → Option ε
  | Except.ok _ => none
  | Except.error e => some e

/-! ## Data model (models.go and the libdns record types used by this repo) -/

/-- libdns.RR, the generic record: Name, TTL (nanoseconds, as Go
`time.Duration`), Type, Data. -/
structure RR where
  name : String
  ttl : Int
  type : String
  data : String
deriving DecidableEq

/-- libdns.MX as constructed by models.go. -/
structure MXRec where
  name : String
  ttl : Int
  preference : Nat
  target : String
deriving DecidableEq

/-- libdns.SRV as constructed by models.go. -/
structure SRVRec where
  service : String
  transport : String
  name : String
  ttl : Int
  priority : Nat
  weight : Nat
  port : Nat
  target : String
deriving DecidableEq

/-- The libdns.Record interface, restricted to the variants this repository
constructs. -/
inductive Record where
  | rr (r : RR)
  | mx (m : MXRec)
  | srv (s : SRVRec)
deriving DecidableEq

/-- The `RR()` method of the libdns record types (modelled from the libdns
dependency: `MX.RR` and `SRV.RR` flatten the typed fields back into the
generic wire form). -/
def Record.RR : Record → RR
  | .rr r => r
  | .mx m =>
    { name := m.name, ttl := m.ttl, type := "MX",
      data := toString m.preference ++ " " ++ m.target }
  | .srv s =>
    { name := "_" ++ s.service ++ "._" ++ s.transport ++ "." ++ s.name,
      ttl := s.ttl, type := "SRV",
      data := toString s.priority ++ " " ++ toString s.weight ++ " " ++
        toString s.port ++ " " ++ s.target }

/-- The flat DirectAdmin record (models.go `daRecord`). -/
structure daRecord where
  type : String
  name : String
  value : String
  combined : String
  ttl : String
deriving DecidableEq

/-- The DirectAdmin JSON response envelope (models.go `daResponse`). -/
structure daResponse where
  error : String
  success : String
  result : String
deriving DecidableEq

/-- The two error outcomes of `libdnsRecord`: a TTL parse failure
(`fmt.Errorf("failed to parse TTL for %v: %v", ...)`) or `ErrUnsupported`. -/
inductive ConvError where
  | ttlParse (name : String)
  | unsupported
deriving DecidableEq

/-- The TTL block at the top of `libdnsRecord`: an empty TTL string is 0,
otherwise Atoi then `time.Duration(ttlVal) * time.Second`. -/
def parseTTL (name s : String) : Except ConvError Int :=
  if 0 < s.length then
    match goAtoi s with
    | none => Except.error (ConvError.ttlParse name)
    | some v => Except.ok (wrap64 (v * 1000000000))
  else Except.ok 0

/-- models.go `daRecord.libdnsRecord`: translate a flat DirectAdmin record
into a libdns record. -/
def daRecord.libdnsRecord (r : daRecord) (zone : String) : Except ConvError Record :=
  match parseTTL r.name r.ttl with
  | Except.error e => Except.error e
  | Except.ok ttl =>
    if r.type = "MX" then
      if 2 ≤ (goSplit r.value ' ').length then
        match goAtoi ((goSplit r.value ' ').getD 0 "") with
        | some priority =>
          Except.ok (Record.mx
            { name := r.name, ttl := ttl, preference := uint16ofInt priority,
              target := (goSplit r.value ' ').getD 1 "" ++ "." ++ zone })
        | none =>
          Except.ok (Record.rr { name := r.name, ttl := ttl, type := r.type, data := r.value })
      else Except.ok (Record.rr { name := r.name, ttl := ttl, type := r.type, data := r.value })
    else if r.type = "SRV" then
      if 4 ≤ (goSplit r.value ' ').length then
        match goAtoi ((goSplit r.value ' ').getD 0 ""), goAtoi ((goSplit r.value ' ').getD 1 ""),
            goAtoi ((goSplit r.value ' ').getD 2 "") with
        | some priority, some weight, some port =>
          if 3 ≤ (goSplit r.name '.').length ∧
              strStartsWith ((goSplit r.name '.').getD 0 "") "_" = true ∧
              strStartsWith ((goSplit r.name '.').getD 1 "") "_" = true then
            Except.ok (Record.srv
              { service := strDropStart ((goSplit r.name '.').getD 0 "") "_",
                transport := strDropStart ((goSplit r.name '.').getD 1 "") "_",
                name := goJoin "." ((goSplit r.name '.').drop 2),
                ttl := ttl,
                priority := uint16ofInt priority,
                weight := uint16ofInt weight,
                port := uint16ofInt port,
                target := (goSplit r.value ' ').getD 3 "" })
          else Except.ok (Record.rr { name := r.name, ttl := ttl, type := r.type, data := r.value })
        | _, _, _ =>
          Except.ok (Record.rr { name := r.name, ttl := ttl, type := r.type, data := r.value })
      else Except.ok (Record.rr { name := r.name, ttl := ttl, type := r.type, data := r.value })
    else if r.type = "URI" then
      Except.error ConvError.unsupported
    else
      Except.ok (Record.rr { name := r.name, ttl := ttl, type := r.type, data := r.value })

/-! ## provider.go -/

/-- The subdomain portion `adjustRecordForZone` strips: empty when the trimmed
zones are equal, otherwise the requested zone with `"." ++ managedZone`
trimmed from its end. -/
def adjustSubdomain (requestedZone managedZone : String) : String :=
  if strTrimSuffix requestedZone "." = strTrimSuffix managedZone "." then ""
  else strTrimSuffix (strTrimSuffix requestedZone ".") ("." ++ strTrimSuffix managedZone ".")

/-- provider.go `adjustRecordForZone`: rewrite a record name when the managed
zone differs from the requested zone. -/
def adjustRecordForZone (record : Record) (requestedZone managedZone : String) : Record :=
  if strHasSuffix (strTrimSuffix requestedZone ".") (strTrimSuffix managedZone ".") = false then
    record
  else if adjustSubdomain requestedZone managedZone = "" then
    record
  else if strHasSuffix record.RR.name ("." ++ adjustSubdomain requestedZone managedZone) = true then
    record
  else
    Record.rr
      { name := record.RR.name ++ "." ++ adjustSubdomain requestedZone managedZone,
        ttl := record.RR.ttl, type := record.RR.type, data := record.RR.data }

/-- The per-record guard in `SetRecords` (and the other mutating operations):
the record is adjusted only when the managed zone differs from the trimmed
requested zone. -/
def adjustIfNeeded (zone managedZone : String) (r : Record) : Record :=
  if managedZone ≠ strTrimSuffix zone "." then adjustRecordForZone r zone managedZone else r

/-- What `SetRecords` does to one record: adjust it, then hand it to
`setZoneRecord`, whose network outcome is the oracle `f`. -/
def setApply (f : Record → Except String Record) (zone managedZone : String) (r : Record) :
    Except String Record :=
  f (adjustIfNeeded zone managedZone r)

/-- The record loop of `SetRecords`: successfully updated records in order,
and the collected errors in order. -/
def setRecordsLoop (g : Record → Except String Record) : List Record → List Record × List String
  | [] => ([], [])
  | r :: rs =>
    match g r with
    | Except.ok v => (v :: (setRecordsLoop g rs).1, (setRecordsLoop g rs).2)
    | Except.error e => ((setRecordsLoop g rs).1, e :: (setRecordsLoop g rs).2)

/-- The error returned by `SetRecords`: either a `libdns.AtomicErr`-wrapped
error or a plain one. -/
inductive SetErr where
  | atomic (msg : String)
  | plain (msg : String)
deriving DecidableEq

/-- Go `fmt` rendering of a `[]error` value: bracketed, space-separated. -/
def errorsFmt (errs : List String) : String :=
  "[" ++ goJoin " " errs ++ "]"

/-- provider.go `SetRecords`, with zone detection already resolved to
`managedZone` and the per-record `setZoneRecord` outcome given by `f`.
Returns the Go pair (records, error). -/
def SetRecords (f : Record → Except String Record) (zone managedZone : String)
    (recs : List Record) : List Record × Option SetErr :=
  if 0 < (setRecordsLoop (setApply f zone managedZone) recs).2.length then
    if (setRecordsLoop (setApply f zone managedZone) recs).1.length = 0 then
      ([], some (SetErr.atomic ("all records failed to update: " ++
        errorsFmt (setRecordsLoop (setApply f zone managedZone) recs).2)))
    else
      ((setRecordsLoop (setApply f zone managedZone) recs).1,
        some (SetErr.plain ("partial update failed: " ++
          errorsFmt (setRecordsLoop (setApply f zone managedZone) recs).2)))
  else ((setRecordsLoop (setApply f zone managedZone) recs).1, none)

/-! ## client.go -/

/-- Outcome of the record-conversion loop in `getZoneRecords`. -/
inductive LoopOutcome where
  | ok (recs : List Record)
  | err (e : ConvError)
  | nilPanic
deriving DecidableEq

/-- The conversion loop of client.go `getZoneRecords`.  In the
`ErrUnsupported` branch the Go code evaluates `libDnsRecord.RR()` to log a
warning, but `libdnsRecord` returned a nil record together with
`ErrUnsupported`, so that method call dereferences a nil interface and
panics; that run-time panic is `LoopOutcome.nilPanic`. -/
def getZoneRecordsConvert (zone : String) : List daRecord → LoopOutcome
  | [] => LoopOutcome.ok []
  | r :: rs =>
    match r.libdnsRecord zone with
    | Except.error ConvError.unsupported => LoopOutcome.nilPanic
    | Except.error e => LoopOutcome.err e
    | Except.ok rec =>
      match getZoneRecordsConvert zone rs with
      | LoopOutcome.ok l => LoopOutcome.ok (rec :: l)
      | out => out

/-- Outcome of `findRoot` (src/unnamed/part_000): the zone found in the
server's domain list, the "root zone not found" error, or the run-time panic
of slicing an empty slice. -/
inductive FindRootResult where
  | found (zone : String)
  | notFound
  | slicePanic
deriving DecidableEq

/-- The suffix-search loop of `findRoot`.  Each round compares the join of the
remaining labels against every server domain, then drops the leftmost label
with `zoneParts = zoneParts[1:]`; when `zoneParts` is already empty that Go
slice expression is out of range and panics. -/
def findRootLoop (resp : List String) : List String → Nat → FindRootResult
  | _, 0 => FindRootResult.notFound
  | parts, fuel + 1 =>
    if goJoin "." parts ∈ resp then FindRootResult.found (goJoin "." parts)
    else
      match parts with
      | [] => FindRootResult.slicePanic
      | _ :: rest => findRootLoop resp rest fuel

/-- src/unnamed/part_000 `findRoot`: split the requested zone on dots and run
up to 100 rounds of the suffix search against the domains reported by
`CMD_API_SHOW_DOMAINS`. -/
def findRoot (zone : String) (resp : List String) : FindRootResult :=
  findRootLoop resp (goSplit zone '.') 100

instance {ε α : Type} [DecidableEq ε] [DecidableEq α] : DecidableEq (Except ε α) := fun a b =>
  match a, b with
  | Except.ok x, Except.ok y =>
    if h : x = y then isTrue (congrArg Except.ok h)
    else isFalse (fun he => h (Except.ok.inj he))
  | Except.error x, Except.error y =>
    if h : x = y then isTrue (congrArg Except.error h)
    else isFalse (fun he => h (Except.error.inj he))
  | Except.ok _, Except.error _ => isFalse (fun he => Except.noConfusion he)
  | Except.error _, Except.ok _ => isFalse (fun he => Except.noConfusion he)

/-- The outcome of every effectful step of `executeRequest`, passed in as an
explicit environment: request building, request execution, JSON decoding of
the body, the HTTP status code, and the body re-read on the non-200 path. -/
structure HttpEnv where
  buildErr : Option String
  doErr : Option String
  decoded : Except String daResponse
  status : Nat
  readErr : Option String
deriving DecidableEq

/-- client.go `executeRequest`: returns the error the Go function returns
(`none` is Go's nil error). -/
def executeRequest (env : HttpEnv) : Option String :=
  match env.buildErr with
  | some e => some e
  | none =>
    match env.doErr with
    | some e => some e
    | none =>
      match env.decoded with
      | Except.error e => some e
      | Except.ok respData =>
        if 0 < respData.error.length then
          some ("api error: " ++ respData.error ++ ", result: " ++ firstLine respData.result)
        else if env.status ≠ 200 then
          match env.readErr with
          | some e => some e
          | none => some ("api request failed with status code " ++ toString env.status)
        else none

/-! ## Helper lemmas -/

theorem str_data_eq {a b : String} (h : a.data = b.data) : a = b := by
  cases a; cases b; exact congrArg String.mk h

theorem strAppend_assoc (a b c : String) : a ++ b ++ c = a ++ (b ++ c) := by
  apply str_data_eq
  simp [String.data_append, List.append_assoc]

theorem strHasSuffix_append (a b : String) : strHasSuffix (a ++ b) b = true := by
  unfold strHasSuffix
  rw [String.data_append, List.length_append, Nat.add_sub_cancel, List.drop_left]
  simp

theorem strHasSuffix_self (a : String) : strHasSuffix a a = true := by
  unfold strHasSuffix
  simp

theorem strTrimSuffix_append (a b : String) : strTrimSuffix (a ++ b) b = a := by
  unfold strTrimSuffix
  rw [if_pos (strHasSuffix_append a b)]
  apply str_data_eq
  rw [String.data_append, List.length_append, Nat.add_sub_cancel, List.take_left]

theorem append_dot_ne (s mg : String) : s ++ "." ++ mg ≠ mg := by
  intro h
  have hl := congrArg (fun t : String => t.data.length) h
  have hd : (String.data ".").length = 1 := rfl
  simp only [String.data_append, List.length_append, hd] at hl
  omega

theorem strLength_pos_iff (s : String) : 0 < s.length ↔ s ≠ "" := by
  cases s with
  | mk l =>
    cases l with
    | nil => simp [String.length]
    | cons c cs =>
      simp only [String.length]
      constructor
      · intro _ he
        exact List.cons_ne_nil c cs (congrArg String.data he)
      · intro _
        simp

/-! ## C1 and C9: adjustRecordForZone -/

/-- C1 counterexample: with requested zone `test.domain.com` and managed zone
`domain.com` (a strict dot-separated extension with subdomain `test`), a
record whose name `a.test` already ends in `.test` is returned unchanged,
not with name `a.test.test` as the claim requires. -/
theorem adjustRecordForZone_already_adjusted_counterexample :
    adjustRecordForZone (Record.rr { name := "a.test", ttl := 0, type := "TXT", data := "x" })
        "test.domain.com" "domain.com" =
      Record.rr { name := "a.test", ttl := 0, type := "TXT", data := "x" } ∧
    strTrimSuffix "test.domain.com" "." = "test" ++ "." ++ strTrimSuffix "domain.com" "." ∧
    ("test" : String) ≠ "" ∧
    Record.rr { name := "a.test", ttl := 0, type := "TXT", data := "x" } ≠
      Record.rr { name := "a.test" ++ "." ++ "test", ttl := 0, type := "TXT", data := "x" } := by
  exact ⟨by decide, by decide, by decide, by decide⟩

/-- C1 (amended): when the trimmed requested zone is a strict dot-separated
extension `s ++ "." ++ managed` of the trimmed managed zone, the record name
gets `"." ++ s` appended — unless it already ends in `"." ++ s`, in which
case the record is returned unchanged; when the trimmed zones are equal, or
the trimmed managed zone is not a suffix of the trimmed requested zone, the
record is returned unchanged. -/
theorem adjustRecordForZone_cases (record : Record) (requestedZone managedZone s : String) :
    (strTrimSuffix requestedZone "." = s ++ "." ++ strTrimSuffix managedZone "." → s ≠ "" →
      adjustRecordForZone record requestedZone managedZone =
        if strHasSuffix record.RR.name ("." ++ s) = true then record
        else Record.rr
          { name := record.RR.name ++ "." ++ s, ttl := record.RR.ttl,
            type := record.RR.type, data := record.RR.data }) ∧
    (strTrimSuffix requestedZone "." = strTrimSuffix managedZone "." →
      adjustRecordForZone record requestedZone managedZone = record) ∧
    (strHasSuffix (strTrimSuffix requestedZone ".") (strTrimSuffix managedZone ".") = false →
      adjustRecordForZone record requestedZone managedZone = record) := by
  refine ⟨?_, ?_, ?_⟩
  · intro h hs
    have hsuf : strHasSuffix (strTrimSuffix requestedZone ".") (strTrimSuffix managedZone ".") =
        true := by
      rw [h]
      exact strHasSuffix_append (s ++ ".") _
    have hne : strTrimSuffix requestedZone "." ≠ strTrimSuffix managedZone "." := by
      rw [h]
      exact append_dot_ne s _
    have hsub : adjustSubdomain requestedZone managedZone = s := by
      unfold adjustSubdomain
      rw [if_neg hne, h, strAppend_assoc]
      exact strTrimSuffix_append s _
    unfold adjustRecordForZone
    rw [hsuf, hsub]
    simp [hs]
  · intro h
    simp [adjustRecordForZone, adjustSubdomain, h, strHasSuffix_self]
  · intro h
    simp [adjustRecordForZone, h]

/-- C1 witness: concrete instantiation of each case of
`adjustRecordForZone_cases`. -/
theorem adjustRecordForZone_cases_witness :
    adjustRecordForZone (Record.rr { name := "www", ttl := 0, type := "A", data := "1.2.3.4" })
        "test.domain.com" "domain.com" =
      Record.rr { name := "www.test", ttl := 0, type := "A", data := "1.2.3.4" } ∧
    adjustRecordForZone (Record.rr { name := "www", ttl := 0, type := "A", data := "1.2.3.4" })
        "domain.com." "domain.com" =
      Record.rr { name := "www", ttl := 0, type := "A", data := "1.2.3.4" } ∧
    adjustRecordForZone (Record.rr { name := "www", ttl := 0, type := "A", data := "1.2.3.4" })
        "other.net" "domain.com" =
      Record.rr { name := "www", ttl := 0, type := "A", data := "1.2.3.4" } := by
  refine ⟨?_, ?_, ?_⟩
  · exact (adjustRecordForZone_cases
      (Record.rr { name := "www", ttl := 0, type := "A", data := "1.2.3.4" })
      "test.domain.com" "domain.com" "test").1 (by decide) (by decide)
  · exact (adjustRecordForZone_cases
      (Record.rr { name := "www", ttl := 0, type := "A", data := "1.2.3.4" })
      "domain.com." "domain.com" "").2.1 (by decide)
  · exact (adjustRecordForZone_cases
      (Record.rr { name := "www", ttl := 0, type := "A", data := "1.2.3.4" })
      "other.net" "domain.com" "").2.2 (by decide)

/-- C9: adjustRecordForZone is idempotent for fixed requested and managed
zones, and it never changes the Type, Data or TTL of the record's RR view —
only the Name. -/
theorem adjustRecordForZone_idempotent_preserves_fields (record : Record)
    (requestedZone managedZone : String) :
    adjustRecordForZone (adjustRecordForZone record requestedZone managedZone)
        requestedZone managedZone =
      adjustRecordForZone record requestedZone managedZone ∧
    (adjustRecordForZone record requestedZone managedZone).RR.type = record.RR.type ∧
    (adjustRecordForZone record requestedZone managedZone).RR.data = record.RR.data ∧
    (adjustRecordForZone record requestedZone managedZone).RR.ttl = record.RR.ttl := by
  by_cases h1 : strHasSuffix (strTrimSuffix requestedZone ".") (strTrimSuffix managedZone ".") =
      false
  · simp [adjustRecordForZone, h1]
  · by_cases h2 : adjustSubdomain requestedZone managedZone = ""
    · simp [adjustRecordForZone, h1, h2]
    · by_cases h3 : strHasSuffix record.RR.name
          ("." ++ adjustSubdomain requestedZone managedZone) = true
      · simp [adjustRecordForZone, h1, h2, h3]
      · have heq : adjustRecordForZone record requestedZone managedZone =
            Record.rr
              { name := record.RR.name ++ "." ++ adjustSubdomain requestedZone managedZone,
                ttl := record.RR.ttl, type := record.RR.type, data := record.RR.data } := by
          simp [adjustRecordForZone, h1, h2, h3]
        have hsfx : strHasSuffix
            (record.RR.name ++ "." ++ adjustSubdomain requestedZone managedZone)
            ("." ++ adjustSubdomain requestedZone managedZone) = true := by
          rw [strAppend_assoc]
          exact strHasSuffix_append _ _
        refine ⟨?_, ?_, ?_, ?_⟩
        · rw [heq]
          unfold adjustRecordForZone
          rw [if_neg h1, if_neg h2]
          have hsfx2 : strHasSuffix
              (Record.RR (Record.rr
                { name := record.RR.name ++ "." ++ adjustSubdomain requestedZone managedZone,
                  ttl := record.RR.ttl, type := record.RR.type,
                  data := record.RR.data })).name
              ("." ++ adjustSubdomain requestedZone managedZone) = true := hsfx
          rw [if_pos hsfx2]
        · rw [heq]
          rfl
        · rw [heq]
          rfl
        · rw [heq]
          rfl

/-! ## C2: findRoot -/

/-- C2: when no dot-suffix of the requested zone appears in the server's
domain list, findRoot does not return the "root zone not found" error: after
dropping every label it evaluates `zoneParts[1:]` on an empty slice, which
panics at run time.  Here zone `example.com` with server domains
`["other.net"]`. -/
theorem findRoot_panics_on_missing_root :
    findRoot "example.com" ["other.net"] = FindRootResult.slicePanic ∧
    FindRootResult.slicePanic ≠ FindRootResult.notFound ∧
    findRoot "sub.example.com" ["foo.org", "example.com"] =
      FindRootResult.found "example.com" := by
  exact ⟨by decide, by decide, by decide⟩

/-! ## C7: getZoneRecords and unsupported records -/

/-- C7: a zone whose record list contains a URI record does not have that
record skipped — the conversion loop panics (`libDnsRecord.RR()` on the nil
record returned with `ErrUnsupported`) instead of returning the remaining
conversions with a nil error. -/
theorem getZoneRecords_uri_panic :
    getZoneRecordsConvert "example.com"
      [{ type := "URI", name := "u", value := "10 1 uri.example.com", combined := "", ttl := "" },
       { type := "A", name := "www", value := "1.2.3.4", combined := "", ttl := "" }] =
      LoopOutcome.nilPanic ∧
    LoopOutcome.nilPanic ≠
      LoopOutcome.ok
        [Record.rr { name := "www", ttl := 0, type := "A", data := "1.2.3.4" }] := by
  exact ⟨by decide, by decide⟩

/-! ## C4, C5, C6: libdnsRecord -/

/-- C4 counterexample: a URI record is not converted into any record variant;
`libdnsRecord` returns `ErrUnsupported` instead. -/
theorem libdnsRecord_uri_not_converted :
    daRecord.libdnsRecord
        { type := "URI", name := "u", value := "10 1 uri.example.com", combined := "", ttl := "" }
        "example.com" =
      Except.error ConvError.unsupported ∧
    exceptOk (daRecord.libdnsRecord
        { type := "URI", name := "u", value := "10 1 uri.example.com", combined := "", ttl := "" }
        "example.com") = none := by
  exact ⟨by decide, by decide⟩

/-- C5 counterexample: an MX record with the numeric first field 65537 is
converted with Preference `uint16(65537) = 1`, not 65537 as the claim
states. -/
theorem libdnsRecord_mx_preference_truncation :
    daRecord.libdnsRecord
        { type := "MX", name := "m", value := "65537 mx1", combined := "", ttl := "" } "z.com" =
      Except.ok (Record.mx { name := "m", ttl := 0, preference := 1, target := "mx1.z.com" }) ∧
    (1 : Nat) ≠ 65537 := by
  exact ⟨by decide, by decide⟩

/-- C6 counterexample: an SRV record with port field 65536 is converted with
Port `uint16(65536) = 0`, not 65536 as the claim states. -/
theorem libdnsRecord_srv_port_truncation :
    daRecord.libdnsRecord
        { type := "SRV", name := "_sip._tcp.ex", value := "1 2 65536 tgt", combined := "",
          ttl := "" } "z.com" =
      Except.ok (Record.srv
        { service := "sip", transport := "tcp", name := "ex", ttl := 0,
          priority := 1, weight := 2, port := 0, target := "tgt" }) ∧
    (0 : Nat) ≠ 65536 := by
  exact ⟨by decide, by decide⟩

/-- C5 (amended): an MX record whose value has at least two space-separated
fields and a first field Atoi accepts becomes the mail-exchange variant with
Preference the parsed number reduced to the low 16 bits (Go `uint16`
conversion) and Target the second field ++ "." ++ zone, keeping the name and
parsed TTL; every other MX value becomes the generic record unchanged. -/
theorem libdnsRecord_mx_cases (r : daRecord) (zone : String) (t n : Int)
    (hty : r.type = "MX") (httl : parseTTL r.name r.ttl = Except.ok t) :
    (2 ≤ (goSplit r.value ' ').length →
      goAtoi ((goSplit r.value ' ').getD 0 "") = some n →
      daRecord.libdnsRecord r zone =
        Except.ok (Record.mx
          { name := r.name, ttl := t, preference := uint16ofInt n,
            target := (goSplit r.value ' ').getD 1 "" ++ "." ++ zone })) ∧
    ((goSplit r.value ' ').length < 2 ∨ goAtoi ((goSplit r.value ' ').getD 0 "") = none →
      daRecord.libdnsRecord r zone =
        Except.ok (Record.rr { name := r.name, ttl := t, type := "MX", data := r.value })) := by
  constructor
  · intro hlen hatoi
    unfold daRecord.libdnsRecord
    rw [httl]
    simp [hty, hlen, hatoi, -List.getD_eq_getElem?_getD]
  · intro hother
    unfold daRecord.libdnsRecord
    rw [httl]
    rcases hother with hlt | hnone
    · have hneg : ¬ 2 ≤ (goSplit r.value ' ').length := by omega
      simp [hty, hneg, -List.getD_eq_getElem?_getD]
    · by_cases hlen : 2 ≤ (goSplit r.value ' ').length
      · simp [hty, hlen, hnone, -List.getD_eq_getElem?_getD]
      · simp [hty, hlen, -List.getD_eq_getElem?_getD]

/-- C5 witness: concrete instantiation of both cases of
`libdnsRecord_mx_cases`. -/
theorem libdnsRecord_mx_cases_witness :
    daRecord.libdnsRecord
        { type := "MX", name := "m", value := "10 mail", combined := "", ttl := "" } "ex.org" =
      Except.ok (Record.mx
        { name := "m", ttl := 0, preference := 10, target := "mail.ex.org" }) ∧
    daRecord.libdnsRecord
        { type := "MX", name := "m", value := "hello", combined := "", ttl := "" } "ex.org" =
      Except.ok (Record.rr { name := "m", ttl := 0, type := "MX", data := "hello" }) := by
  constructor
  · exact (libdnsRecord_mx_cases
      { type := "MX", name := "m", value := "10 mail", combined := "", ttl := "" }
      "ex.org" 0 10 rfl (by decide)).1 (by decide) (by decide)
  · exact (libdnsRecord_mx_cases
      { type := "MX", name := "m", value := "hello", combined := "", ttl := "" }
      "ex.org" 0 0 rfl (by decide)).2 (Or.inl (by decide))

/-- C6 (amended): an SRV record whose value has at least four space-separated
fields with the first three accepted by Atoi, and whose name has at least
three dot-separated labels with the first two starting with an underscore,
becomes the service variant with the underscores stripped, the remaining
labels joined as the name, Priority/Weight/Port the parsed numbers reduced to
the low 16 bits (Go `uint16` conversions) and Target the fourth field; every
other SRV case becomes the generic record. -/
theorem libdnsRecord_srv_cases (r : daRecord) (zone : String) (t p w pt : Int)
    (hty : r.type = "SRV") (httl : parseTTL r.name r.ttl = Except.ok t) :
    (4 ≤ (goSplit r.value ' ').length →
      goAtoi ((goSplit r.value ' ').getD 0 "") = some p →
      goAtoi ((goSplit r.value ' ').getD 1 "") = some w →
      goAtoi ((goSplit r.value ' ').getD 2 "") = some pt →
      3 ≤ (goSplit r.name '.').length →
      strStartsWith ((goSplit r.name '.').getD 0 "") "_" = true →
      strStartsWith ((goSplit r.name '.').getD 1 "") "_" = true →
      daRecord.libdnsRecord r zone =
        Except.ok (Record.srv
          { service := strDropStart ((goSplit r.name '.').getD 0 "") "_",
            transport := strDropStart ((goSplit r.name '.').getD 1 "") "_",
            name := goJoin "." ((goSplit r.name '.').drop 2),
            ttl := t, priority := uint16ofInt p, weight := uint16ofInt w,
            port := uint16ofInt pt, target := (goSplit r.value ' ').getD 3 "" })) ∧
    (¬ (4 ≤ (goSplit r.value ' ').length ∧
        (goAtoi ((goSplit r.value ' ').getD 0 "")).isSome = true ∧
        (goAtoi ((goSplit r.value ' ').getD 1 "")).isSome = true ∧
        (goAtoi ((goSplit r.value ' ').getD 2 "")).isSome = true ∧
        3 ≤ (goSplit r.name '.').length ∧
        strStartsWith ((goSplit r.name '.').getD 0 "") "_" = true ∧
        strStartsWith ((goSplit r.name '.').getD 1 "") "_" = true) →
      daRecord.libdnsRecord r zone =
        Except.ok (Record.rr { name := r.name, ttl := t, type := "SRV", data := r.value })) := by
  constructor
  · intro h4 ha0 ha1 ha2 h3 hp0 hp1
    unfold daRecord.libdnsRecord
    rw [httl]
    simp [hty, h4, ha0, ha1, ha2, h3, hp0, hp1, -List.getD_eq_getElem?_getD]
  · intro hn
    unfold daRecord.libdnsRecord
    rw [httl]
    by_cases h4 : 4 ≤ (goSplit r.value ' ').length
    · cases ha0 : goAtoi ((goSplit r.value ' ').getD 0 "") with
      | none => simp [hty, h4, ha0, -List.getD_eq_getElem?_getD]
      | some x0 =>
        cases ha1 : goAtoi ((goSplit r.value ' ').getD 1 "") with
        | none => simp [hty, h4, ha0, ha1, -List.getD_eq_getElem?_getD]
        | some x1 =>
          cases ha2 : goAtoi ((goSplit r.value ' ').getD 2 "") with
          | none => simp [hty, h4, ha0, ha1, ha2, -List.getD_eq_getElem?_getD]
          | some x2 =>
            have hname : ¬ (3 ≤ (goSplit r.name '.').length ∧
                strStartsWith ((goSplit r.name '.').getD 0 "") "_" = true ∧
                strStartsWith ((goSplit r.name '.').getD 1 "") "_" = true) := by
              intro hc
              exact hn ⟨h4, by rw [ha0]; rfl, by rw [ha1]; rfl, by rw [ha2]; rfl,
                hc.1, hc.2.1, hc.2.2⟩
            simp [hty, h4, ha0, ha1, ha2, hname, -List.getD_eq_getElem?_getD]
    · simp [hty, h4, -List.getD_eq_getElem?_getD]

/-- C6 witness: concrete instantiation of both cases of
`libdnsRecord_srv_cases`. -/
theorem libdnsRecord_srv_cases_witness :
    daRecord.libdnsRecord
        { type := "SRV", name := "_sip._tcp.example.com",
          value := "10 20 5060 sipserver.example.com", combined := "", ttl := "" } "z.com" =
      Except.ok (Record.srv
        { service := "sip", transport := "tcp", name := "example.com", ttl := 0,
          priority := 10, weight := 20, port := 5060,
          target := "sipserver.example.com" }) ∧
    daRecord.libdnsRecord
        { type := "SRV", name := "x", value := "1 2 3", combined := "", ttl := "" } "z.com" =
      Except.ok (Record.rr { name := "x", ttl := 0, type := "SRV", data := "1 2 3" }) := by
  constructor
  · exact (libdnsRecord_srv_cases
      { type := "SRV", name := "_sip._tcp.example.com",
        value := "10 20 5060 sipserver.example.com", combined := "", ttl := "" }
      "z.com" 0 10 20 5060 rfl (by decide)).1 (by decide) (by decide) (by decide) (by decide)
      (by decide) (by decide) (by decide)
  · exact (libdnsRecord_srv_cases
      { type := "SRV", name := "x", value := "1 2 3", combined := "", ttl := "" }
      "z.com" 0 0 0 0 rfl (by decide)).2 (by decide)

/-- C4 (amended): for every record whose TTL parses (or is empty),
libdnsRecord is total and classifies by type — MX becomes the mail-exchange
variant or, if malformed, the generic record; SRV becomes the service variant
or the generic record; URI is rejected with ErrUnsupported; every other type
(including address and text records) becomes the generic record; a TTL that
Atoi rejects is a conversion error. -/
theorem libdnsRecord_total_classification (r : daRecord) (zone : String) :
    (∀ t, parseTTL r.name r.ttl = Except.ok t →
      ((r.type ≠ "MX" → r.type ≠ "SRV" → r.type ≠ "URI" →
        daRecord.libdnsRecord r zone =
          Except.ok (Record.rr { name := r.name, ttl := t, type := r.type, data := r.value })) ∧
       (r.type = "URI" → daRecord.libdnsRecord r zone = Except.error ConvError.unsupported) ∧
       (r.type = "MX" →
        (∃ m, daRecord.libdnsRecord r zone = Except.ok (Record.mx m)) ∨
        daRecord.libdnsRecord r zone =
          Except.ok (Record.rr { name := r.name, ttl := t, type := r.type, data := r.value })) ∧
       (r.type = "SRV" →
        (∃ sv, daRecord.libdnsRecord r zone = Except.ok (Record.srv sv)) ∨
        daRecord.libdnsRecord r zone =
          Except.ok (Record.rr { name := r.name, ttl := t, type := r.type, data := r.value })))) ∧
    (∀ e, parseTTL r.name r.ttl = Except.error e →
      daRecord.libdnsRecord r zone = Except.error e) := by
  constructor
  · intro t httl
    refine ⟨?_, ?_, ?_, ?_⟩
    · intro hmx hsrv huri
      unfold daRecord.libdnsRecord
      rw [httl]
      simp [hmx, hsrv, huri, -List.getD_eq_getElem?_getD]
    · intro h
      unfold daRecord.libdnsRecord
      rw [httl]
      simp [h, -List.getD_eq_getElem?_getD]
    · intro h
      unfold daRecord.libdnsRecord
      rw [httl]
      by_cases h2 : 2 ≤ (goSplit r.value ' ').length
      · cases ha : goAtoi ((goSplit r.value ' ').getD 0 "") with
        | none =>
          right
          simp [h, h2, ha, -List.getD_eq_getElem?_getD]
        | some pr =>
          left
          refine
            ⟨{ name := r.name, ttl := t, preference := uint16ofInt pr,
               target := (goSplit r.value ' ').getD 1 "" ++ "." ++ zone }, ?_⟩
          simp [h, h2, ha, -List.getD_eq_getElem?_getD]
      · right
        simp [h, h2, -List.getD_eq_getElem?_getD]
    · intro h
      unfold daRecord.libdnsRecord
      rw [httl]
      by_cases h4 : 4 ≤ (goSplit r.value ' ').length
      · cases ha0 : goAtoi ((goSplit r.value ' ').getD 0 "") with
        | none =>
          right
          simp [h, h4, ha0, -List.getD_eq_getElem?_getD]
        | some x0 =>
          cases ha1 : goAtoi ((goSplit r.value ' ').getD 1 "") with
          | none =>
            right
            simp [h, h4, ha0, ha1, -List.getD_eq_getElem?_getD]
          | some x1 =>
            cases ha2 : goAtoi ((goSplit r.value ' ').getD 2 "") with
            | none =>
              right
              simp [h, h4, ha0, ha1, ha2, -List.getD_eq_getElem?_getD]
            | some x2 =>
              by_cases hname : 3 ≤ (goSplit r.name '.').length ∧
                  strStartsWith ((goSplit r.name '.').getD 0 "") "_" = true ∧
                  strStartsWith ((goSplit r.name '.').getD 1 "") "_" = true
              · left
                refine
                  ⟨{ service := strDropStart ((goSplit r.name '.').getD 0 "") "_",
                     transport := strDropStart ((goSplit r.name '.').getD 1 "") "_",
                     name := goJoin "." ((goSplit r.name '.').drop 2), ttl := t,
                     priority := uint16ofInt x0, weight := uint16ofInt x1,
                     port := uint16ofInt x2,
                     target := (goSplit r.value ' ').getD 3 "" }, ?_⟩
                simp [h, h4, ha0, ha1, ha2, hname, -List.getD_eq_getElem?_getD]
              · right
                simp [h, h4, ha0, ha1, ha2, hname, -List.getD_eq_getElem?_getD]
      · right
        simp [h, h4, -List.getD_eq_getElem?_getD]
  · intro e he
    unfold daRecord.libdnsRecord
    rw [he]

/-- C4 witness: concrete instantiations of `libdnsRecord_total_classification`
for a text record, a URI record and an unparsable TTL. -/
theorem libdnsRecord_total_classification_witness :
    daRecord.libdnsRecord
        { type := "TXT", name := "n", value := "hello world", combined := "", ttl := "" }
        "z.com" =
      Except.ok (Record.rr { name := "n", ttl := 0, type := "TXT", data := "hello world" }) ∧
    daRecord.libdnsRecord
        { type := "URI", name := "u", value := "v", combined := "", ttl := "" } "z.com" =
      Except.error ConvError.unsupported ∧
    daRecord.libdnsRecord
        { type := "A", name := "a", value := "1.2.3.4", combined := "", ttl := "bad" } "z.com" =
      Except.error (ConvError.ttlParse "a") := by
  refine ⟨?_, ?_, ?_⟩
  · exact ((libdnsRecord_total_classification
      { type := "TXT", name := "n", value := "hello world", combined := "", ttl := "" }
      "z.com").1 0 (by decide)).1 (by decide) (by decide) (by decide)
  · exact ((libdnsRecord_total_classification
      { type := "URI", name := "u", value := "v", combined := "", ttl := "" }
      "z.com").1 0 (by decide)).2.1 (by decide)
  · exact (libdnsRecord_total_classification
      { type := "A", name := "a", value := "1.2.3.4", combined := "", ttl := "bad" }
      "z.com").2 (ConvError.ttlParse "a") (by decide)

/-! ## C3: SetRecords error aggregation -/

theorem setRecordsLoop_fst (g : Record → Except String Record) (recs : List Record) :
    (setRecordsLoop g recs).1 = recs.filterMap (fun r => exceptOk (g r)) := by
  induction recs with
  | nil => rfl
  | cons r rs ih =>
    simp only [setRecordsLoop, List.filterMap_cons]
    cases hg : g r <;> simp [exceptOk, hg, ih]

theorem setRecordsLoop_snd (g : Record → Except String Record) (recs : List Record) :
    (setRecordsLoop g recs).2 = recs.filterMap (fun r => exceptErr (g r)) := by
  induction recs with
  | nil => rfl
  | cons r rs ih =>
    simp only [setRecordsLoop, List.filterMap_cons]
    cases hg : g r <;> simp [exceptErr, hg, ih]

theorem exceptOk_none_error {e : Except String Record} (h : exceptOk e = none) :
    ∃ s, e = Except.error s := by
  cases e with
  | ok v => exact absurd h (by simp [exceptOk])
  | error s => exact ⟨s, rfl⟩

theorem exceptErr_none_ok {e : Except String Record} (h : exceptErr e = none) :
    ∃ v, e = Except.ok v := by
  cases e with
  | ok v => exact ⟨v, rfl⟩
  | error s => exact absurd h (by simp [exceptErr])

/-- C3: SetRecords aggregates the per-record outcomes — if every record fails
the result is a nil list with an atomic "all records failed to update" error;
if some but not all fail, it is exactly the successfully updated records with
a "partial update failed" error; if none fail, it is all updated records with
a nil error. -/
theorem setRecords_error_aggregation (f : Record → Except String Record)
    (zone managedZone : String) (recs : List Record) :
    (recs ≠ [] → (∀ r ∈ recs, exceptOk (setApply f zone managedZone r) = none) →
      SetRecords f zone managedZone recs =
        ([], some (SetErr.atomic ("all records failed to update: " ++
          errorsFmt (recs.filterMap (fun r => exceptErr (setApply f zone managedZone r))))))) ∧
    ((∃ r ∈ recs, exceptOk (setApply f zone managedZone r) = none) →
     (∃ r ∈ recs, exceptErr (setApply f zone managedZone r) = none) →
      SetRecords f zone managedZone recs =
        (recs.filterMap (fun r => exceptOk (setApply f zone managedZone r)),
         some (SetErr.plain ("partial update failed: " ++
          errorsFmt (recs.filterMap (fun r => exceptErr (setApply f zone managedZone r))))))) ∧
    ((∀ r ∈ recs, exceptErr (setApply f zone managedZone r) = none) →
      SetRecords f zone managedZone recs =
        (recs.filterMap (fun r => exceptOk (setApply f zone managedZone r)), none)) := by
  refine ⟨?_, ?_, ?_⟩
  · intro hne hall
    have hupd : (setRecordsLoop (setApply f zone managedZone) recs).1 = [] := by
      rw [setRecordsLoop_fst]
      exact List.filterMap_eq_nil_iff.mpr hall
    have herr : 0 < (setRecordsLoop (setApply f zone managedZone) recs).2.length := by
      rw [setRecordsLoop_snd]
      obtain ⟨r, hr⟩ := List.exists_mem_of_ne_nil recs hne
      obtain ⟨s, hs⟩ := exceptOk_none_error (hall r hr)
      have hmem : s ∈ recs.filterMap (fun r => exceptErr (setApply f zone managedZone r)) :=
        List.mem_filterMap.mpr ⟨r, hr, by rw [hs]; rfl⟩
      exact List.length_pos.mpr (List.ne_nil_of_mem hmem)
    unfold SetRecords
    rw [if_pos herr, if_pos (by rw [hupd]; rfl), setRecordsLoop_snd]
  · intro hfail hok
    have herr : 0 < (setRecordsLoop (setApply f zone managedZone) recs).2.length := by
      rw [setRecordsLoop_snd]
      obtain ⟨r, hr, hrf⟩ := hfail
      obtain ⟨s, hs⟩ := exceptOk_none_error hrf
      have hmem : s ∈ recs.filterMap (fun r => exceptErr (setApply f zone managedZone r)) :=
        List.mem_filterMap.mpr ⟨r, hr, by rw [hs]; rfl⟩
      exact List.length_pos.mpr (List.ne_nil_of_mem hmem)
    have hupd : ¬ (setRecordsLoop (setApply f zone managedZone) recs).1.length = 0 := by
      rw [setRecordsLoop_fst]
      obtain ⟨r, hr, hro⟩ := hok
      obtain ⟨v, hv⟩ := exceptErr_none_ok hro
      have hmem : v ∈ recs.filterMap (fun r => exceptOk (setApply f zone managedZone r)) :=
        List.mem_filterMap.mpr ⟨r, hr, by rw [hv]; rfl⟩
      have := List.length_pos.mpr (List.ne_nil_of_mem hmem)
      omega
    unfold SetRecords
    rw [if_pos herr, if_neg hupd, setRecordsLoop_fst, setRecordsLoop_snd]
  · intro hall
    have herr : ¬ 0 < (setRecordsLoop (setApply f zone managedZone) recs).2.length := by
      rw [setRecordsLoop_snd, List.filterMap_eq_nil_iff.mpr hall]
      simp
    unfold SetRecords
    rw [if_neg herr, setRecordsLoop_fst]

/-- A concrete `setZoneRecord` outcome used to instantiate
`setRecords_error_aggregation`: updating an A record fails, everything else
echoes the record back. -/
def demoSetOutcome (r : Record) : Except String Record :=
  if r.RR.type = "A" then Except.error "boom" else Except.ok r

/-- C3 witness: concrete instantiation of all three cases of
`setRecords_error_aggregation`. -/
theorem setRecords_error_aggregation_witness :
    SetRecords demoSetOutcome "example.com" "example.com"
        [Record.rr { name := "a", ttl := 0, type := "A", data := "1.1.1.1" }] =
      ([], some (SetErr.atomic "all records failed to update: [boom]")) ∧
    SetRecords demoSetOutcome "example.com" "example.com"
        [Record.rr { name := "a", ttl := 0, type := "A", data := "1.1.1.1" },
         Record.rr { name := "t", ttl := 0, type := "TXT", data := "x" }] =
      ([Record.rr { name := "t", ttl := 0, type := "TXT", data := "x" }],
        some (SetErr.plain "partial update failed: [boom]")) ∧
    SetRecords demoSetOutcome "example.com" "example.com"
        [Record.rr { name := "t", ttl := 0, type := "TXT", data := "x" }] =
      ([Record.rr { name := "t", ttl := 0, type := "TXT", data := "x" }], none) := by
  refine ⟨?_, ?_, ?_⟩
  · exact (setRecords_error_aggregation demoSetOutcome "example.com" "example.com"
      [Record.rr { name := "a", ttl := 0, type := "A", data := "1.1.1.1" }]).1
      (by decide) (by decide)
  · exact (setRecords_error_aggregation demoSetOutcome "example.com" "example.com"
      [Record.rr { name := "a", ttl := 0, type := "A", data := "1.1.1.1" },
       Record.rr { name := "t", ttl := 0, type := "TXT", data := "x" }]).2.1
      (by decide) (by decide)
  · exact (setRecords_error_aggregation demoSetOutcome "example.com" "example.com"
      [Record.rr { name := "t", ttl := 0, type := "TXT", data := "x" }]).2.2
      (by decide)

/-! ## C8: executeRequest -/

/-- C8: executeRequest returns a nil error exactly when the request was
built and executed, the body decoded as JSON, the decoded error field is
empty and the status is 200; and when the decoded error field is non-empty
the returned message carries that error string and only the first line of
the result field. -/
theorem executeRequest_error_iff (env : HttpEnv) :
    (executeRequest env = none ↔
      env.buildErr = none ∧ env.doErr = none ∧
      (∃ d, env.decoded = Except.ok d ∧ d.error = "" ∧ env.status = 200)) ∧
    (∀ d, env.buildErr = none → env.doErr = none → env.decoded = Except.ok d →
      d.error ≠ "" →
      executeRequest env =
        some ("api error: " ++ d.error ++ ", result: " ++ firstLine d.result)) := by
  obtain ⟨b, dr, dec, st, re⟩ := env
  constructor
  · cases b with
    | some e => simp [executeRequest]
    | none =>
      cases dr with
      | some e => simp [executeRequest]
      | none =>
        cases dec with
        | error e => simp [executeRequest]
        | ok d =>
          by_cases he : d.error = ""
          · have hlen : ¬ 0 < d.error.length := by
              rw [strLength_pos_iff]
              simp [he]
            by_cases hst : st = 200
            · simp [executeRequest, hlen, hst, he]
            · cases re with
              | some e => simp [executeRequest, hlen, hst]
              | none => simp [executeRequest, hlen, hst]
          · have hlen : 0 < d.error.length := (strLength_pos_iff d.error).mpr he
            simp [executeRequest, hlen, he]
  · intro d hb hdr hdec he
    subst hb
    subst hdr
    cases dec with
    | error e => exact absurd hdec (by simp)
    | ok d0 =>
      have hd : d0 = d := Except.ok.inj hdec
      subst hd
      have hlen : 0 < d0.error.length := (strLength_pos_iff d0.error).mpr he
      simp [executeRequest, hlen]

/-- C8 witness: concrete instantiation of `executeRequest_error_iff`. -/
theorem executeRequest_error_iff_witness :
    executeRequest
        { buildErr := none, doErr := none,
          decoded := Except.ok { error := "Cannot View", success := "", result := "line1\nline2" },
          status := 200, readErr := none } =
      some "api error: Cannot View, result: line1" := by
  exact (executeRequest_error_iff
    { buildErr := none, doErr := none,
      decoded := Except.ok { error := "Cannot View", success := "", result := "line1\nline2" },
      status := 200, readErr := none }).2
    { error := "Cannot View", success := "", result := "line1\nline2" }
    rfl rfl rfl (by decide)

end DirectAdmin
